import Mathlib

/-!
Shallow embedding of `src/my-manet-routing-compare.cc` (an ns-3 MANET routing
experiment) and proofs about its measurement and traffic-orchestration logic.

The embedding models, faithfully to the source:
* the receive accumulator (`bytesTotal`, `packetsReceived`, both C++ `uint32_t`,
  so arithmetic is modulo 2^32);
* the periodic throughput sampler `CheckThroughput` (compute rate, emit one CSV
  row, reset counters, reschedule itself one simulated second later);
* the experiment run loop: `RoutingExperiment::Run` calls `CheckThroughput`
  directly (source line 415) before `Simulator::Run` (line 419), so the first
  firing happens at virtual time 0 with the constructor-initialised counters,
  and the stop event at `TotalTime` (line 417) halts dispatch before a firing
  scheduled at exactly that time;
* the per-pair sink/source application installation loop (lines 362-379);
* the routing-stack installation (lines 335-347), which installs static routing
  and AODV unconditionally;
* the CSV header/row writing and the per-packet log line.
-/

set_option autoImplicit false
set_option linter.unusedVariables false

namespace ManetCompare

/-- Modulus of the C++ `uint32_t` counters `bytesTotal` and `packetsReceived`. -/
def U32 : ℕ := 4294967296

/-- The two receive counters of `RoutingExperiment`
(source lines 106-107, both `uint32_t`). -/
structure Accum where
  bytesTotal : ℕ
  packetsReceived : ℕ
deriving DecidableEq

/-- Counter values set by the constructor (source lines 119-120). -/
def Accum.init : Accum := ⟨0, 0⟩

/-- One iteration of the receive loop in `RoutingExperiment::ReceivePacket`
(source lines 154-155): `bytesTotal += packet->GetSize ()` and
`packetsReceived += 1`, with `uint32_t` wraparound. -/
def ReceivePacket (a : Accum) (size : ℕ) : Accum :=
  ⟨(a.bytesTotal + size) % U32, (a.packetsReceived + 1) % U32⟩

/-- The read-and-reset of the counters performed by `CheckThroughput`
(source lines 163-164 for bytes, 170 and 177 for packets): report both
counters, zero both. This is the spec's `drainAndReset` operation. -/
def drainAndReset (a : Accum) : (ℕ × ℕ) × Accum :=
  ((a.bytesTotal, a.packetsReceived), ⟨0, 0⟩)

/-- `m_nSinks`, set from `nSinks = 15` in `main` (source line 222). -/
def m_nSinks : ℤ := 15

/-- `m_txp`, set from `txp = 7.5` in `main` (source line 224). -/
def m_txp : ℚ := 15 / 2

/-- Default of the `m_protocol` field (source line 124); the field is never
read again anywhere in the program. -/
def m_protocol : ℕ := 2

/-- `m_protocolName`, assigned `"AODV"` in `Run` (source line 344) before the
first `CheckThroughput` call. -/
def m_protocolName : String := "AODV"

/-- `TotalTime = 103.0` (source line 245). -/
def TotalTime : ℚ := 103

/-- One CSV data row, with the fields streamed by `CheckThroughput`
(source lines 168-174).  Virtual times and the rate are exact rationals; the
C++ `double` values arising here (whole seconds, `n * 8 / 1000`, `7.5`) are
all exactly representable, so no rounding is abstracted away. -/
structure SampleRow where
  timestamp : ℚ
  rateKbps : ℚ
  packetsReceived : ℕ
  sinkCount : ℤ
  protocolLabel : String
  txPowerDbm : ℚ
deriving DecidableEq

/-- Result of one `CheckThroughput` firing: the row written, the counter state
left behind, and the virtual time of the self-scheduled next firing. -/
structure FireResult where
  row : SampleRow
  acc : Accum
  nextFire : ℚ
deriving DecidableEq

/-- `RoutingExperiment::CheckThroughput` (source lines 161-179):
`kbs = bytesTotal * 8.0 / 1000`; write the row
`now, kbs, packetsReceived, m_nSinks, m_protocolName, m_txp`; zero both
counters (lines 164 and 177); schedule itself again one second from now
(line 178), unconditionally. -/
def CheckThroughput (now : ℚ) (a : Accum) : FireResult :=
  { row := { timestamp := now
           , rateKbps := (a.bytesTotal : ℚ) * 8 / 1000
           , packetsReceived := a.packetsReceived
           , sinkCount := m_nSinks
           , protocolLabel := m_protocolName
           , txPowerDbm := m_txp }
  , acc := ⟨0, 0⟩
  , nextFire := now + 1 }

/-- Virtual times of the successive sampler firings.  The first firing is the
direct call in `Run` (source line 415), which happens at virtual time 0,
before `Simulator::Run` dispatches anything; each later firing is the event
the previous one scheduled (`nextFire`).  `nextFire` does not depend on the
accumulator argument, so `Accum.init` is passed for definiteness. -/
def fireTime : ℕ → ℚ
  | 0 => 0
  | n + 1 => (CheckThroughput (fireTime n) Accum.init).nextFire

/-- The rows appended to the CSV by a run, as a function of the packet trace.
`ev n` lists the sizes of the packets delivered to `ReceivePacket` in the open
window between the firing at time `n` and the firing at time `n + 1`; `fuel`
is the number of firings the scheduler dispatches before the stop event at
`Seconds (TotalTime)` halts it (the stop event is scheduled at setup, so it is
dispatched ahead of a sampler event inserted later at the same timestamp:
firings happen at times `0, 1, ..., TotalTime - 1`).  `k` is the index (and
virtual time) of the next firing, `a` the counter state. -/
def RunAux (ev : ℕ → List ℕ) : ℕ → ℕ → Accum → List SampleRow
  | 0, _, _ => []
  | fuel + 1, k, a =>
    let fr := CheckThroughput (k : ℚ) a
    fr.row :: RunAux ev fuel (k + 1) ((ev k).foldl ReceivePacket fr.acc)

/-- All CSV data rows of one experiment run.  `mProtocol` is the value of the
`m_protocol` field: `Run` (source lines 229-424) never reads it, which is why
it does not occur on the right-hand side.  The first firing uses the
constructor counters (`Accum.init`, lines 119-120). -/
def RunRows (mProtocol : ℕ) (ev : ℕ → List ℕ) (fuel : ℕ) : List SampleRow :=
  RunAux ev fuel 0 Accum.init

/-! ### Helper lemmas about the accumulator and the run loop -/

theorem U32_pos : 0 < U32 := by decide

/-- Folding a window of packet deliveries over the counters adds the sizes
and counts the packets, modulo `2^32`. -/
theorem foldl_ReceivePacket (sizes : List ℕ) :
    ∀ a : Accum, a.bytesTotal < U32 → a.packetsReceived < U32 →
      (sizes.foldl ReceivePacket a).bytesTotal = (a.bytesTotal + sizes.sum) % U32 ∧
      (sizes.foldl ReceivePacket a).packetsReceived
        = (a.packetsReceived + sizes.length) % U32 := by
  induction sizes with
  | nil =>
    intro a hb hp
    constructor
    · simpa using (Nat.mod_eq_of_lt hb).symm
    · simpa using (Nat.mod_eq_of_lt hp).symm
  | cons s rest ih =>
    intro a hb hp
    have hb' : (a.bytesTotal + s) % U32 < U32 := Nat.mod_lt _ U32_pos
    have hp' : (a.packetsReceived + 1) % U32 < U32 := Nat.mod_lt _ U32_pos
    have := ih (ReceivePacket a s) hb' hp'
    constructor
    · calc (((s :: rest).foldl ReceivePacket a)).bytesTotal
          = ((a.bytesTotal + s) % U32 + rest.sum) % U32 := by
            simpa [ReceivePacket] using this.1
        _ = (a.bytesTotal + (s :: rest).sum) % U32 := by
            rw [Nat.mod_add_mod, List.sum_cons]
            congr 1
            omega
    · calc (((s :: rest).foldl ReceivePacket a)).packetsReceived
          = ((a.packetsReceived + 1) % U32 + rest.length) % U32 := by
            simpa [ReceivePacket] using this.2
        _ = (a.packetsReceived + (s :: rest).length) % U32 := by
            rw [Nat.mod_add_mod, List.length_cons]
            congr 1
            omega

/-- The timestamps of the rows produced by `RunAux` starting at firing index
`k` are exactly `k, k + 1, ...`. -/
theorem RunAux_map_timestamp (ev : ℕ → List ℕ) :
    ∀ (fuel k : ℕ) (a : Accum),
      (RunAux ev fuel k a).map SampleRow.timestamp
        = (List.range' k fuel).map (fun n => (n : ℚ)) := by
  intro fuel
  induction fuel with
  | zero => intro k a; simp [RunAux]
  | succ n ih =>
    intro k a
    simp [RunAux, List.range', CheckThroughput, ih]

/-- Every run writes exactly `fuel` rows: one per dispatched firing. -/
theorem RunAux_length (ev : ℕ → List ℕ) :
    ∀ (fuel k : ℕ) (a : Accum), (RunAux ev fuel k a).length = fuel := by
  intro fuel
  induction fuel with
  | zero => intro k a; simp [RunAux]
  | succ n ih => intro k a; simp [RunAux, ih]

/-- Every row a run produces carries the label `"AODV"`. -/
theorem RunAux_protocolLabel (ev : ℕ → List ℕ) :
    ∀ (fuel k : ℕ) (a : Accum) (r : SampleRow),
      r ∈ RunAux ev fuel k a → r.protocolLabel = "AODV" := by
  intro fuel
  induction fuel with
  | zero => intro k a r hr; simp [RunAux] at hr
  | succ n ih =>
    intro k a r hr
    simp only [RunAux, List.mem_cons] at hr
    rcases hr with h | h
    · subst h; rfl
    · exact ih _ _ _ h

/-! ### Numeric text rendering

The C++ code renders numbers through `std::ostream`.  We model that rendering
with an executable decimal printer; the only property the proofs rely on is
that numeric text begins with a digit or a minus sign (never a letter), which
is true of every `std::ostream` numeric format. -/

/-- Decimal digits of `n`, most significant first. -/
def natChars (n : ℕ) : List Char :=
  if h : n < 10 then [Nat.digitChar n]
  else natChars (n / 10) ++ [Nat.digitChar (n % 10)]
  termination_by n
  decreasing_by exact Nat.div_lt_self (by omega) (by omega)

/-- Rendering of a C++ `int` value. -/
def intChars (i : ℤ) : List Char :=
  (if i < 0 then ['-'] else []) ++ natChars i.natAbs

/-- Rendering of an exact rational value (stands in for the `std::ostream`
rendering of the corresponding `double`). -/
def ratChars (q : ℚ) : List Char :=
  (if q < 0 then ['-'] else []) ++ natChars q.num.natAbs
    ++ (if q.den = 1 then [] else '/' :: natChars q.den)

/-- `natChars` always yields a nonempty digit string. -/
theorem natChars_head (n : ℕ) :
    ∃ c cs, natChars n = c :: cs ∧ c.isDigit = true := by
  induction n using Nat.strong_induction_on with
  | _ n ih =>
    rw [natChars]
    split
    · rename_i h
      refine ⟨Nat.digitChar n, [], rfl, ?_⟩
      interval_cases n <;> decide
    · rename_i h
      obtain ⟨c, cs, hrec, hc⟩ := ih (n / 10) (Nat.div_lt_self (by omega) (by omega))
      exact ⟨c, cs ++ [Nat.digitChar (n % 10)], by rw [hrec]; simp, hc⟩

/-- `ratChars` always yields a nonempty string starting with a minus sign or
a digit. -/
theorem ratChars_head (q : ℚ) :
    ∃ c cs, ratChars q = c :: cs ∧ (c = '-' ∨ c.isDigit = true) := by
  obtain ⟨c, cs, h, hc⟩ := natChars_head q.num.natAbs
  unfold ratChars
  by_cases hq : q < 0
  · refine ⟨'-', natChars q.num.natAbs
      ++ (if q.den = 1 then [] else '/' :: natChars q.den), ?_, Or.inl rfl⟩
    simp [hq]
  · refine ⟨c, cs ++ (if q.den = 1 then [] else '/' :: natChars q.den),
      ?_, Or.inr hc⟩
    simp [hq, h]

/-! ### ResultsWriter: the CSV file -/

/-- The header written by `main` (source lines 212-218): the concatenation of
the six streamed string literals. -/
def headerLine : String :=
  "SimulationSecond,ReceiveRate,PacketsReceived,NumberOfSinks,RoutingProtocol,TransmissionPower"

/-- `std::ofstream out (CSVfileName.c_str ())` in `main` (source line 211)
opens with default flags, truncating any existing content; lines 212-218 then
write the single header line.  The file is modelled as its list of lines. -/
def writeHeader (prior : List String) : List String := [headerLine]

/-- The characters of one data row as streamed by `CheckThroughput`
(source lines 168-174): six fields separated by commas. -/
def rowChars (r : SampleRow) : List Char :=
  ratChars r.timestamp ++ [','] ++ ratChars r.rateKbps ++ [',']
    ++ natChars r.packetsReceived ++ [','] ++ intChars r.sinkCount ++ [',']
    ++ r.protocolLabel.data ++ [','] ++ ratChars r.txPowerDbm

/-- One data row as a CSV line. -/
def rowLine (r : SampleRow) : String := String.mk (rowChars r)

/-- `CheckThroughput` opens the file with `std::ios::app` (source line 166)
and writes one line: appending a row adds one line at the end. -/
def appendRow (file : List String) (r : SampleRow) : List String :=
  file ++ [rowLine r]

/-- A data row never coincides with the header line: its first character is a
digit or a minus sign, while the header starts with `S`. -/
theorem rowLine_ne_headerLine (r : SampleRow) : rowLine r ≠ headerLine := by
  intro h
  obtain ⟨c, cs, hq, hc⟩ := ratChars_head r.timestamp
  have hdata : rowChars r = headerLine.data := congrArg String.data h
  rw [rowChars, hq] at hdata
  have hhead : (c :: (cs ++ [','] ++ ratChars r.rateKbps ++ [',']
      ++ natChars r.packetsReceived ++ [','] ++ intChars r.sinkCount ++ [',']
      ++ r.protocolLabel.data ++ [','] ++ ratChars r.txPowerDbm)).head?
      = headerLine.data.head? := by
    rw [← hdata]; simp
  simp only [List.head?_cons] at hhead
  have hS : headerLine.data.head? = some 'S' := rfl
  rw [hS] at hhead
  have : c = 'S' := by injection hhead
  subst this
  rcases hc with h1 | h1 <;> simp_all

/-- Appending rows one after another appends their lines, in order. -/
theorem foldl_appendRow (rows : List SampleRow) :
    ∀ file : List String,
      rows.foldl appendRow file = file ++ rows.map rowLine := by
  induction rows with
  | nil => intro file; simp
  | cons r rest ih => intro file; simp [appendRow, ih]

/-! ### TrafficPlanner: the sink/source installation loop -/

/-- One sink/source pair as installed by the loop at source lines 362-379. -/
structure FlowSpec where
  sinkNodeIndex : ℕ
  sourceNodeIndex : ℕ
  sinkStart : ℚ
  sinkStop : ℚ
  sourceStart : ℚ
  sourceStop : ℚ
  destIndex : ℕ
  portNum : ℕ
deriving DecidableEq

/-- The loop `for (int i = 0; i < nSinks; i++)` (source lines 362-379):
the sink application goes on node `i` (line 369), starting at the pair's
first draw `var->GetValue (0.0, 1.0)` (line 370) and stopping at `TotalTime`
(line 371); the OnOff source goes on node `i + nSinks` (line 376), starting
at the second draw `var->GetValue (100.0, 101.0)` (line 377) and stopping at
`TotalTime` (line 378); the destination address is interface `i` and the port
the fixed `port = 9` (lines 367, 373, 118).  `sinkDraw i` and `sourceDraw i`
are the two values drawn from pair `i`'s `UniformRandomVariable`. -/
def buildFlows (nSinks : ℕ) (totalTime : ℚ) (sinkDraw sourceDraw : ℕ → ℚ) :
    List FlowSpec :=
  (List.range nSinks).map fun i =>
    { sinkNodeIndex := i
    , sourceNodeIndex := i + nSinks
    , sinkStart := sinkDraw i
    , sinkStop := totalTime
    , sourceStart := sourceDraw i
    , sourceStop := totalTime
    , destIndex := i
    , portNum := 9 }

/-! ### Routing-stack installation -/

/-- The routing setup in `Run` (source lines 335-347): build an
`Ipv4ListRoutingHelper` with static routing at priority 0 (line 342) and AODV
at priority 60 (line 343), set `m_protocolName` to `"AODV"` (line 344), and
install.  The code branches on nothing and has no failure path, so the result
is the same for every value of the `m_protocol` field; `Except` records that
no selector value is rejected. -/
def SetupRouting (mProtocol : ℕ) : Except String (List (String × ℕ) × String) :=
  Except.ok ([("Ipv4StaticRouting", 0), ("AODV", 60)], "AODV")

/-- Written from the spec's words, for comparison with `SetupRouting`:
"maps an integer/string selector to one of {OLSR, AODV, DSDV, DSR};
unrecognized selector is a fatal configuration error". -/
def specProtocolOf (selector : ℕ) : Except String String :=
  match selector with
  | 1 => Except.ok "OLSR"
  | 2 => Except.ok "AODV"
  | 3 => Except.ok "DSDV"
  | 4 => Except.ok "DSR"
  | _ => Except.error "unrecognized protocol selector"

/-! ### The per-packet log line -/

/-- A sender address as seen by `PrintReceivedPacket`: either an
`InetSocketAddress` (IPv4 address and port), or some other address type for
which `InetSocketAddress::IsMatchingType` is false. -/
inductive Address where
  | inet (ip : ℕ) (portNum : ℕ)
  | other
deriving DecidableEq

/-- Dotted-quad rendering of a 32-bit IPv4 address
(`Ipv4Address::operator<<`). -/
def ipv4Chars (ip : ℕ) : List Char :=
  natChars (ip / 16777216 % 256) ++ ['.'] ++ natChars (ip / 65536 % 256)
    ++ ['.'] ++ natChars (ip / 256 % 256) ++ ['.'] ++ natChars (ip % 256)

/-- `PrintReceivedPacket` (source lines 128-145), following the `oss <<`
chain: virtual time, space, node id, then either
`" received one packet from "` and the sender's IPv4 address (lines 135-139)
or `" received one packet!"` (lines 140-143). -/
def PrintReceivedPacket (now : ℚ) (nodeId : ℕ) (sender : Address) : String :=
  String.mk
    (ratChars now ++ [' '] ++ natChars nodeId ++
      (match sender with
       | Address.inet ip _ => " received one packet from ".data ++ ipv4Chars ip
       | Address.other => " received one packet!".data))

/-- Written from the spec's words, for comparison with `PrintReceivedPacket`:
`<virtualTime> <receivingNodeId> received one packet from <senderAddress>`
when the sender address is an Inet socket address, and
`<virtualTime> <receivingNodeId> received one packet!` otherwise. -/
def specReceivedLine (now : ℚ) (nodeId : ℕ) (sender : Address) : String :=
  match sender with
  | Address.inet ip _ =>
      String.mk (ratChars now ++ [' '] ++ natChars nodeId
        ++ " received one packet from ".data ++ ipv4Chars ip)
  | Address.other =>
      String.mk (ratChars now ++ [' '] ++ natChars nodeId
        ++ " received one packet!".data)

/-- The first row of any run that dispatches at least one firing is the row
of the firing at time 0 with the constructor counters. -/
theorem RunRows_head (mp : ℕ) (ev : ℕ → List ℕ) (fuel : ℕ) :
    (RunRows mp ev (fuel + 1)).head? = some (CheckThroughput 0 Accum.init).row :=
  rfl

/-! ### The claims -/

/-- C1, amended.  The sequence of SampleRow timestamps written to the CSV
forms a strictly increasing arithmetic sequence with common difference equal
to the sampling interval (1 simulated second), but its first element is 0,
not `interval`: `Run` invokes `CheckThroughput` directly (source line 415)
before starting the scheduler, so the first sample fires at experiment start,
and sampling continues until the run's total duration (`fuel` firings are
dispatched by a scheduler halted at `Seconds (fuel)`, at times
`0, 1, ..., fuel - 1`). -/
theorem C1_sample_timestamps (mProtocol : ℕ) (ev : ℕ → List ℕ) (fuel : ℕ) :
    (RunRows mProtocol ev fuel).map SampleRow.timestamp
      = (List.range fuel).map (fun n => (n : ℚ)) := by
  rw [RunRows, RunAux_map_timestamp, List.range_eq_range']

/-- C1, counterexample to the claim as stated: in the run of the program
(duration 103 s, so 103 firings), the first CSV timestamp is 0, not the
sampling interval 1. -/
theorem C1_counterexample :
    ((RunRows 2 (fun _ => []) 103).map SampleRow.timestamp).head? = some 0
      ∧ (0 : ℚ) ≠ 1 := by
  refine ⟨?_, by norm_num⟩
  rw [List.head?_map]
  show Option.map SampleRow.timestamp (RunRows 2 (fun _ => []) (102 + 1)).head?
    = some 0
  rw [RunRows_head]
  rfl

/-- C2, amended.  `Run` ignores the protocol selector entirely: for every
value of `m_protocol` it installs static routing (priority 0) and AODV
(priority 60), labels the run `"AODV"`, and never fails; data rows are
written regardless of the selector value. -/
theorem C2_protocol_selector (selector : ℕ) :
    SetupRouting selector
        = Except.ok ([("Ipv4StaticRouting", 0), ("AODV", 60)], "AODV")
      ∧ ∀ (ev : ℕ → List ℕ) (fuel : ℕ),
          (RunRows selector ev fuel).length = fuel := by
  refine ⟨rfl, fun ev fuel => ?_⟩
  rw [RunRows]
  exact RunAux_length ev fuel 0 Accum.init

/-- C2, counterexample to the claim as stated: selector 5 is unsupported,
yet routing setup succeeds (installing AODV) instead of failing fatally, and
a full run with selector 5 writes 103 data rows; moreover selector 1, which
the claimed mapping sends to OLSR, also installs AODV. -/
theorem C2_counterexample :
    SetupRouting 5 = Except.ok ([("Ipv4StaticRouting", 0), ("AODV", 60)], "AODV")
      ∧ specProtocolOf 5 = Except.error "unrecognized protocol selector"
      ∧ (RunRows 5 (fun _ => []) 103).length = 103
      ∧ SetupRouting 1 = Except.ok ([("Ipv4StaticRouting", 0), ("AODV", 60)], "AODV")
      ∧ specProtocolOf 1 = Except.ok "OLSR" := by
  refine ⟨rfl, rfl, ?_, rfl, rfl⟩
  rw [RunRows]
  exact RunAux_length _ _ _ _

/-- C3, amended.  For every sequence of ReceiveEvents delivered between two
consecutive sampler firings, the SampleRow produced by the second firing has
`rateKbps = 8 * (sum of sizeBytes) / 1000` and `packetsReceived` equal to the
number of events — provided the window's byte total and event count stay
below 2^32.  (The counters are C++ `uint32_t`, so beyond that they wrap, see
the counterexample.) -/
theorem C3_window_rate (now : ℚ) (sizes : List ℕ)
    (h1 : sizes.sum < U32) (h2 : sizes.length < U32) :
    (CheckThroughput now (sizes.foldl ReceivePacket Accum.init)).row.rateKbps
        = 8 * (sizes.sum : ℚ) / 1000
      ∧ (CheckThroughput now (sizes.foldl ReceivePacket Accum.init)).row.packetsReceived
        = sizes.length := by
  have hfold := foldl_ReceivePacket sizes Accum.init (by norm_num [Accum.init, U32])
    (by norm_num [Accum.init, U32])
  have hb : (sizes.foldl ReceivePacket Accum.init).bytesTotal = sizes.sum := by
    rw [hfold.1]
    show (0 + sizes.sum) % U32 = sizes.sum
    rw [Nat.zero_add, Nat.mod_eq_of_lt h1]
  have hp : (sizes.foldl ReceivePacket Accum.init).packetsReceived = sizes.length := by
    rw [hfold.2]
    show (0 + sizes.length) % U32 = sizes.length
    rw [Nat.zero_add, Nat.mod_eq_of_lt h2]
  constructor
  · show ((sizes.foldl ReceivePacket Accum.init).bytesTotal : ℚ) * 8 / 1000
      = 8 * (sizes.sum : ℚ) / 1000
    rw [hb]; ring
  · exact hp

/-- C3, witness: a window holding one 512-byte event yields
`rateKbps = 4.096` and one packet. -/
theorem C3_witness :
    ([512] : List ℕ).sum < U32 ∧ ([512] : List ℕ).length < U32
      ∧ ((CheckThroughput 1 (([512] : List ℕ).foldl ReceivePacket Accum.init)).row.rateKbps
           = 8 * ((([512] : List ℕ).sum : ℕ) : ℚ) / 1000
         ∧ (CheckThroughput 1 (([512] : List ℕ).foldl ReceivePacket Accum.init)).row.packetsReceived
           = ([512] : List ℕ).length) :=
  ⟨by decide, by decide, C3_window_rate 1 [512] (by decide) (by decide)⟩

/-- C3, counterexample to the claim as stated: two events of 2^31 bytes in
one window wrap the `uint32_t` byte counter to 0, so the reported rate is 0,
not `8 * 2^32 / 1000`. -/
theorem C3_counterexample :
    (CheckThroughput 1 (([2147483648, 2147483648] : List ℕ).foldl
        ReceivePacket Accum.init)).row.rateKbps
      ≠ 8 * ((([2147483648, 2147483648] : List ℕ).sum : ℕ) : ℚ) / 1000 := by
  have hb : (([2147483648, 2147483648] : List ℕ).foldl
      ReceivePacket Accum.init).bytesTotal = 0 := by decide
  show ((([2147483648, 2147483648] : List ℕ).foldl
      ReceivePacket Accum.init).bytesTotal : ℚ) * 8 / 1000 ≠ _
  rw [hb]
  norm_num [List.sum_cons, List.sum_nil]

/-- C4, confirmed.  For every pair index `i < nSinks`, the installation loop
produces the FlowSpec with sink on endpoint `i` starting at the pair's first
draw (uniform in [0,1)), source on endpoint `i + nSinks` starting at the
second draw (uniform in [100,101)), both stopping at the total duration; and
whenever the total duration is at least 101, no FlowSpec has
`sinkStart ≥ sinkStop` or `sourceStart ≥ sourceStop`. -/
theorem C4_flow_times (nSinks : ℕ) (totalTime : ℚ) (sinkDraw sourceDraw : ℕ → ℚ)
    (hs : ∀ i, 0 ≤ sinkDraw i ∧ sinkDraw i < 1)
    (hd : ∀ i, 100 ≤ sourceDraw i ∧ sourceDraw i < 101)
    (ht : 101 ≤ totalTime) :
    (∀ i, i < nSinks →
       ({ sinkNodeIndex := i, sourceNodeIndex := i + nSinks,
          sinkStart := sinkDraw i, sinkStop := totalTime,
          sourceStart := sourceDraw i, sourceStop := totalTime,
          destIndex := i, portNum := 9 } : FlowSpec)
         ∈ buildFlows nSinks totalTime sinkDraw sourceDraw)
      ∧ ∀ f ∈ buildFlows nSinks totalTime sinkDraw sourceDraw,
          f.sinkStart < f.sinkStop ∧ f.sourceStart < f.sourceStop := by
  constructor
  · intro i hi
    exact List.mem_map.mpr ⟨i, List.mem_range.mpr hi, rfl⟩
  · intro f hf
    obtain ⟨i, hi, rfl⟩ := List.mem_map.mp hf
    refine ⟨?_, ?_⟩
    · show sinkDraw i < totalTime
      have := (hs i).2
      linarith
    · show sourceDraw i < totalTime
      have := (hd i).2
      linarith

/-- C4, witness at `nSinks = 2`, `totalTime = 103`, draws 0.5 and 100.5. -/
theorem C4_witness :
    ({ sinkNodeIndex := 0, sourceNodeIndex := 2, sinkStart := 1/2,
       sinkStop := 103, sourceStart := 201/2, sourceStop := 103,
       destIndex := 0, portNum := 9 } : FlowSpec)
      ∈ buildFlows 2 103 (fun _ => 1/2) (fun _ => 201/2) :=
  (C4_flow_times 2 103 (fun _ => 1/2) (fun _ => 201/2)
    (fun _ => ⟨by norm_num, by norm_num⟩)
    (fun _ => ⟨by norm_num, by norm_num⟩)
    (by norm_num)).1 0 (by norm_num)

/-- C5, amended.  Each receive event increases both counters (so between two
drains they are monotonically non-decreasing) provided the `uint32_t`
counters do not wrap (byte total and packet count stay below 2^32 — see the
counterexample for the wrapping case); each drain resets both counters to
exactly zero, and a second drain with no events in between returns (0, 0). -/
theorem C5_accumulator (a : Accum) (s : ℕ)
    (h1 : a.bytesTotal + s < U32) (h2 : a.packetsReceived + 1 < U32) :
    (a.bytesTotal ≤ (ReceivePacket a s).bytesTotal
       ∧ a.packetsReceived ≤ (ReceivePacket a s).packetsReceived)
      ∧ (drainAndReset a).2 = Accum.init
      ∧ (drainAndReset (drainAndReset a).2).1 = (0, 0) := by
  refine ⟨⟨?_, ?_⟩, rfl, rfl⟩
  · show a.bytesTotal ≤ (a.bytesTotal + s) % U32
    rw [Nat.mod_eq_of_lt h1]
    exact Nat.le_add_right _ _
  · show a.packetsReceived ≤ (a.packetsReceived + 1) % U32
    rw [Nat.mod_eq_of_lt h2]
    exact Nat.le_add_right _ _

/-- C5, witness at the drained accumulator and one 512-byte event. -/
theorem C5_witness :
    Accum.init.bytesTotal + 512 < U32 ∧ Accum.init.packetsReceived + 1 < U32
      ∧ ((Accum.init.bytesTotal ≤ (ReceivePacket Accum.init 512).bytesTotal
            ∧ Accum.init.packetsReceived ≤ (ReceivePacket Accum.init 512).packetsReceived)
         ∧ (drainAndReset Accum.init).2 = Accum.init
         ∧ (drainAndReset (drainAndReset Accum.init).2).1 = (0, 0)) :=
  ⟨by decide, by decide, C5_accumulator Accum.init 512 (by decide) (by decide)⟩

/-- C5, counterexample to the claim as stated: after a 2^31-byte packet, a
second 2^31-byte packet wraps the `uint32_t` byte counter from 2^31 down to
0, so the counter is not monotonically non-decreasing between drains. -/
theorem C5_counterexample :
    (ReceivePacket (ReceivePacket Accum.init 2147483648) 2147483648).bytesTotal
      < (ReceivePacket Accum.init 2147483648).bytesTotal := by
  decide

/-- C6, confirmed.  After every firing the sampler schedules its next firing
at `currentTime + interval` (one second later), unconditionally — it checks
no end condition, so the chain of firings is defined for every index `n` (the
`n`-th firing is at time `n`): it is stopped only by the external scheduler
halting at the total duration. -/
theorem C6_rearm :
    (∀ (now : ℚ) (a : Accum), (CheckThroughput now a).nextFire = now + 1)
      ∧ ∀ n : ℕ, fireTime n = n := by
  refine ⟨fun now a => rfl, fun n => ?_⟩
  induction n with
  | zero => rfl
  | succ k ih =>
    show (CheckThroughput (fireTime k) Accum.init).nextFire = ((k + 1 : ℕ) : ℚ)
    show fireTime k + 1 = ((k + 1 : ℕ) : ℚ)
    rw [ih]
    push_cast
    ring

/-- C7, confirmed.  `writeHeader` truncates the file and writes exactly the
fixed header line; after one `writeHeader`, the file contains exactly one
header line no matter how many `appendRow` calls follow (every data line
begins with a digit or minus sign, never an `S`). -/
theorem C7_header :
    (∀ prior : List String, writeHeader prior = [headerLine])
      ∧ ∀ (prior : List String) (rows : List SampleRow),
          (rows.foldl appendRow (writeHeader prior)).count headerLine = 1 := by
  refine ⟨fun prior => rfl, fun prior rows => ?_⟩
  rw [foldl_appendRow, writeHeader, List.count_append]
  have h0 : (rows.map rowLine).count headerLine = 0 := by
    rw [List.count_eq_zero]
    intro hmem
    obtain ⟨r, _, hr⟩ := List.mem_map.mp hmem
    exact rowLine_ne_headerLine r hr
  rw [h0]
  simp

/-- C8, confirmed.  For every received packet the log line equals
`<virtualTime> <receivingNodeId> received one packet from <senderAddress>`
when the sender address is an Inet socket address, and
`<virtualTime> <receivingNodeId> received one packet!` otherwise. -/
theorem C8_log_line (now : ℚ) (nodeId : ℕ) (sender : Address) :
    PrintReceivedPacket now nodeId sender = specReceivedLine now nodeId sender := by
  cases sender <;>
    simp [PrintReceivedPacket, specReceivedLine, List.append_assoc]

/-- C9, confirmed.  `m_protocol` defaults to 2 and the run's rows do not
depend on it at all; every SampleRow of every run carries the protocol label
`"AODV"`. -/
theorem C9_label_aodv :
    m_protocol = 2
      ∧ (∀ (p q : ℕ) (ev : ℕ → List ℕ) (fuel : ℕ),
          RunRows p ev fuel = RunRows q ev fuel)
      ∧ ∀ (p : ℕ) (ev : ℕ → List ℕ) (fuel : ℕ) (r : SampleRow),
          r ∈ RunRows p ev fuel → r.protocolLabel = "AODV" :=
  ⟨rfl, fun p q ev fuel => rfl,
    fun p ev fuel r hr => RunAux_protocolLabel ev fuel 0 Accum.init r hr⟩

/-- C9, witness: the single row of a one-firing run with selector 5 carries
the label `"AODV"`. -/
theorem C9_witness :
    ({ timestamp := 0, rateKbps := 0, packetsReceived := 0, sinkCount := 15,
       protocolLabel := "AODV", txPowerDbm := 15 / 2 } : SampleRow).protocolLabel
      = "AODV" :=
  C9_label_aodv.2.2 5 (fun _ => []) 1 _ (by
    have h : RunRows 5 (fun _ => []) 1
        = [{ timestamp := 0, rateKbps := 0, packetsReceived := 0, sinkCount := 15,
             protocolLabel := "AODV", txPowerDbm := 15 / 2 }] := by
      show [(CheckThroughput 0 Accum.init).row] = _
      norm_num [CheckThroughput, Accum.init, m_nSinks, m_txp, m_protocolName]
    rw [h]
    exact List.mem_singleton.mpr rfl)

/-- C10, confirmed.  The first sampler firing is the direct call in `Run`
(source line 415), before the scheduler dispatches any event, so in every run
that fires at least once the first CSV data row has timestamp 0, rate 0 and
packet count 0 — the counters still hold their constructor values. -/
theorem C10_first_row (mProtocol : ℕ) (ev : ℕ → List ℕ) (fuel : ℕ) :
    (RunRows mProtocol ev (fuel + 1)).head?
      = some { timestamp := 0, rateKbps := 0, packetsReceived := 0,
               sinkCount := m_nSinks, protocolLabel := m_protocolName,
               txPowerDbm := m_txp } := by
  rw [RunRows_head]
  show some (CheckThroughput 0 Accum.init).row = _
  norm_num [CheckThroughput, Accum.init]

end ManetCompare
